import Mathlib

/-!
Shallow embedding of the reflow HTTP-request-manager core:
the rule engine (src/rules/RuleEngine.ts) and the logger
(src/logger/Logger.ts), with theorems checking the specification
claims against the code.

Modelling conventions:
* A JavaScript string record (`Record<string, string>`) is an
  insertion-ordered association list: assigning an existing key updates
  it in place, assigning a new key appends, `delete` removes the entry.
* `Date` timestamps are integers (milliseconds since the epoch).
* Optional fields (`value?: string`) are `Option`.
* JavaScript template interpolation of `undefined` renders "undefined";
  `x || ''` on an optional string is `Option.getD x ""`.
* External primitives the code calls (`RegExp#replace`, `new URL`,
  `JSON.parse`, `JSON.stringify`, `RegExp#test` of a pre-compiled regex)
  are parameters of the embedding; a primitive that can throw is
  modelled as `Except String` (the `String` being the error message).
-/

namespace Reflow

/-- JS `Record<string, string>`: insertion-ordered association list. -/
abbrev HMap := List (String × String)

/-- Read `headers[k]` (first binding wins; JS objects have unique keys). -/
def getH (hs : HMap) (k : String) : Option String :=
  match hs with
  | [] => none
  | (k', v) :: rest => if k' = k then some v else getH rest k

/-- Assign `headers[k] = v`: update in place when present, else append. -/
def setH (hs : HMap) (k v : String) : HMap :=
  match hs with
  | [] => [(k, v)]
  | (k', v') :: rest => if k' = k then (k, v) :: rest else (k', v') :: setH rest k v

/-- `delete headers[k]`. -/
def removeH (hs : HMap) (k : String) : HMap :=
  hs.filter (fun kv => kv.1 ≠ k)

/-- `HeaderOperation.operation` in src/types (part_014): `'set' | 'remove' | 'append'`. -/
inductive HeaderOpKind where
  | set
  | remove
  | append
deriving DecidableEq

/-- `HeaderOperation` in src/types (part_014). -/
structure HeaderOperation where
  operation : HeaderOpKind
  header : String
  value : Option String
deriving DecidableEq

/-- `HeaderModification` in src/types (part_014); the `type: 'modifyHeaders'`
tag is the `RuleAction.modifyHeaders` constructor. -/
structure HeaderModification where
  requestHeaders : Option (List HeaderOperation)
  responseHeaders : Option (List HeaderOperation)

/-- `URLRedirection` in src/types (part_014). -/
structure URLRedirection where
  destination : String
  regexSubstitution : Option String

/-- `BodyModification.target`. -/
inductive BodyTarget where
  | request
  | response

/-- `BodyModification.contentType`. -/
inductive BodyContentType where
  | json
  | text
  | binary
deriving DecidableEq

/-- JSON values (`JSON.parse` output). JSON numbers are modelled as
integers; no claim depends on numeric values. -/
inductive Json where
  | null
  | bool (b : Bool)
  | num (n : Int)
  | str (s : String)
  | arr (xs : List Json)
  | obj (fields : List (String × Json))

/-- `JSONPathModification | FullReplacement` in src/types (part_014).
`FullReplacement.content : string | ArrayBuffer` is modelled as the
string it decodes to (no claim depends on raw binary data). -/
inductive BodyMod where
  | jsonPath (path : String) (value : Json)
  | replace (content : String)

/-- `BodyModification` in src/types (part_014). -/
structure BodyModification where
  target : BodyTarget
  contentType : BodyContentType
  modification : BodyMod

/-- `ResponseOverride` in src/types (part_014). -/
structure ResponseOverride where
  statusCode : Int
  headers : HMap
  body : String

/-- `RuleAction` union from src/types (part_014); the `type` string tag
is the constructor. -/
inductive RuleAction where
  | modifyHeaders (a : HeaderModification)
  | redirect (a : URLRedirection)
  | modifyBody (a : BodyModification)
  | mockResponse (a : ResponseOverride)

/-- `urlPattern: string | RegExp`: a pre-compiled regex is represented by
its `test` function against a URL. -/
inductive URLPattern where
  | wildcard (pattern : String)
  | regex (test : String → Bool)

/-- `Rule` in src/types (part_014). -/
structure Rule where
  id : String
  name : String
  enabled : Bool
  priority : Int
  urlPattern : URLPattern
  action : RuleAction
  createdAt : Int
  modifiedAt : Int

/-- `RequestInfo` in RuleEngine.ts (part_005). -/
structure RequestInfo where
  url : String
  method : String
  headers : HMap
  body : Option String

/-- `ModifiedRequest` in RuleEngine.ts (part_005). -/
structure ModifiedRequest where
  url : String
  method : String
  headers : HMap
  body : Option String
  modifications : List String

/-- `SECURITY_RESTRICTED_HEADERS` in RuleEngine.ts (part_005, lines 19-37). -/
def SECURITY_RESTRICTED_HEADERS : List String :=
  ["host", "connection", "content-length", "cookie", "cookie2",
   "set-cookie", "set-cookie2", "origin", "referer", "user-agent",
   "proxy-authorization", "proxy-connection", "te", "trailer",
   "transfer-encoding", "upgrade", "via"]

/-- JS template interpolation `${v}` of an optional string. -/
def ovStr (v : Option String) : String := v.getD "undefined"

/-- JS `String#toLowerCase`, character-wise (header names are ASCII). -/
def jsToLower (s : String) : String := String.mk (s.data.map Char.toLower)

/-- One iteration of the `for (const op of operations)` loop in
`applyHeaderModifications` (part_005, lines 114-142). The JS
`if (modified.headers[op.header])` guard is string truthiness:
present and non-empty. -/
def headerStep (m : ModifiedRequest) (op : HeaderOperation) : ModifiedRequest :=
  let headerName := jsToLower op.header
  if SECURITY_RESTRICTED_HEADERS.contains headerName then
    { m with modifications := m.modifications ++ ["Skipped restricted header: " ++ op.header] }
  else
    match op.operation with
    | .set =>
        { m with headers := setH m.headers op.header (op.value.getD ""),
                 modifications := m.modifications ++
                   ["Set header: " ++ op.header ++ " = " ++ ovStr op.value] }
    | .remove =>
        { m with headers := removeH m.headers op.header,
                 modifications := m.modifications ++ ["Removed header: " ++ op.header] }
    | .append =>
        let newHeaders :=
          match getH m.headers op.header with
          | some v => if v = "" then setH m.headers op.header (op.value.getD "")
                      else setH m.headers op.header (v ++ ", " ++ ovStr op.value)
          | none => setH m.headers op.header (op.value.getD "")
        { m with headers := newHeaders,
                 modifications := m.modifications ++
                   ["Appended header: " ++ op.header ++ " += " ++ ovStr op.value] }

/-- `RuleEngine.applyHeaderModifications` (part_005, lines 107-145):
`const operations = action.requestHeaders || []` then the loop. -/
def applyHeaderModifications (action : HeaderModification) (modified : ModifiedRequest) :
    ModifiedRequest :=
  (action.requestHeaders.getD []).foldl headerStep modified

/-- The `try` block of `RuleEngine.applyURLRedirection` (part_005,
lines 155-168): compute the candidate URL and validate it. -/
def redirectAttempt (replaceFirst : String → String → String → Except String String)
    (parseURL : String → Except String Unit)
    (action : URLRedirection) (url : String) : Except String String :=
  match action.regexSubstitution with
  | some sub =>
      match replaceFirst action.destination sub url with
      | .ok newURL =>
          match parseURL newURL with
          | .ok _ => .ok newURL
          | .error e => .error e
      | .error e => .error e
  | none =>
      match parseURL action.destination with
      | .ok _ => .ok action.destination
      | .error e => .error e

/-- `RuleEngine.applyURLRedirection` (part_005, lines 150-185). -/
def applyURLRedirection (replaceFirst : String → String → String → Except String String)
    (parseURL : String → Except String Unit)
    (action : URLRedirection) (modified : ModifiedRequest)
    (originalRequest : RequestInfo) : ModifiedRequest :=
  match redirectAttempt replaceFirst parseURL action originalRequest.url with
  | .ok newURL =>
      { modified with url := newURL,
                      modifications := modified.modifications ++ ["Redirected to: " ++ newURL] }
  | .error msg =>
      { modified with modifications := modified.modifications ++
          ["Error: Invalid URL redirection - " ++ msg] }

/-! ### JSON path machinery (`RuleEngine.applyJSONPath`, part_005 lines 288-314)

The TypeScript walks the parsed JSON value with plain JS property
accesses (`current[part]`, `current[key][parseInt(index)]`) and a final
JS assignment, inside module (strict-mode) code. We model a JS value in
flight as `JsVal`: a tree value, `undefined`, or an **inherited host
member** — a JS property read on a `JSON.parse` object traverses the
prototype chain, so a key like `"toString"` that is absent from the
parsed structure still resolves to `Object.prototype.toString`.
Property reads and strict-mode assignments are `Except String` (an
`.error` is a thrown `TypeError`); the final in-place mutation is a
functional rebuild of the path — equivalent because `JSON.parse` output
is a tree with no aliasing, and a mutation that lands on an inherited
host object (which is extensible, so the assignment succeeds) never
changes the parsed tree. Own properties **of** host objects (e.g.
`toString.name`) and the type-specific prototypes of arrays, strings
and numbers (`Array.prototype.push`, `String.prototype.toUpperCase`,
…), are outside the modelled scope; no theorem's hypotheses reach
them. -/

/-- Split a character list on a separator character; always returns at
least one (possibly empty) piece, like JS `String#split` with a
one-character separator. -/
def splitOnCharL (sep : Char) : List Char → List (List Char)
  | [] => [[]]
  | c :: rest =>
      let r := splitOnCharL sep rest
      if c = sep then [] :: r
      else
        match r with
        | [] => [[c]]
        | h :: t => (c :: h) :: t

/-- JS `s.split(sep)` for a one-character separator. -/
def jsSplit (sep : Char) (s : String) : List String :=
  (splitOnCharL sep s.data).map String.mk

/-- Value of `parseInt` on a non-empty digit string. -/
def natOfDigits (ds : List Char) : Nat :=
  ds.foldl (fun n c => n * 10 + (c.toNat - '0'.toNat)) 0

/-- Split a character list around its **last** `'['`:
`some (before, after)` when one exists. -/
def splitLastLB : List Char → Option (List Char × List Char)
  | [] => none
  | c :: rest =>
      match splitLastLB rest with
      | some (pre, suf) => some (c :: pre, suf)
      | none => if c = '[' then some ([], rest) else none

/-- The `part.match(/^(.+)\[(\d+)\]$/)` test: greedy `(.+)` matches up to
the last `'['` that is followed only by one or more digits and the final
`']'`, with a non-empty key before it. -/
def parseSeg (part : String) : Option (String × Nat) :=
  let cs := part.data
  if cs.getLast? = some ']' then
    match splitLastLB cs.dropLast with
    | some (key, digits) =>
        if key ≠ [] ∧ digits ≠ [] ∧ digits.all Char.isDigit then
          some (String.mk key, natOfDigits digits)
        else none
    | none => none
  else none

/-- First-match association lookup in a JSON object. -/
def lookupField (fs : List (String × Json)) (k : String) : Option Json :=
  match fs with
  | [] => none
  | (k', v) :: rest => if k' = k then some v else lookupField rest k

/-- Replace the binding of `k` in place, or append it. -/
def setField (fs : List (String × Json)) (k : String) (v : Json) : List (String × Json) :=
  match fs with
  | [] => [(k, v)]
  | (k', v') :: rest => if k' = k then (k, v) :: rest else (k', v') :: setField rest k v

/-- A canonical JS array-index property key: non-empty, all digits, no
leading zero (except `"0"` itself). -/
def canonIndex (k : String) : Option Nat :=
  if k.data ≠ [] ∧ k.data.all Char.isDigit ∧ (k = "0" ∨ k.data.head? ≠ some '0') then
    some (natOfDigits k.data)
  else none

/-- `arr[i] = v` as observed through `JSON.stringify`: in-range indices
are replaced, out-of-range assignment extends with `null` holes. -/
def setArr (xs : List Json) (i : Nat) (v : Json) : List Json :=
  if i < xs.length then xs.set i v
  else xs ++ List.replicate (i - xs.length) Json.null ++ [v]

/-- A JS value in flight during the path walk: a node of the parsed
tree, an inherited host member (named after the key that resolved to
it), or `undefined`. -/
inductive JsVal where
  | val (j : Json)
  | proto (name : String)
  | undefined

/-- The own property names of `Object.prototype`, which every
`JSON.parse` object (and array) inherits. -/
def OBJ_PROTO_KEYS : List String :=
  ["constructor", "hasOwnProperty", "isPrototypeOf", "propertyIsEnumerable",
   "toLocaleString", "toString", "valueOf",
   "__defineGetter__", "__defineSetter__", "__lookupGetter__", "__lookupSetter__",
   "__proto__"]

/-- JS property read `cur[key]` on an in-flight value. Reading from
`undefined` or `null` throws; objects give their own member, else an
inherited `Object.prototype` member, else `undefined`; arrays and
strings support `length` and index keys; string indexing yields
one-character strings; primitives fall back to the inherited
`Object.prototype` members. -/
def jsGetField (cur : JsVal) (key : String) : Except String JsVal :=
  match cur with
  | .undefined => .error ("Cannot read properties of undefined (reading '" ++ key ++ "')")
  | .val .null => .error ("Cannot read properties of null (reading '" ++ key ++ "')")
  | .val (.obj fs) =>
      .ok (match lookupField fs key with
           | some v => .val v
           | none => if OBJ_PROTO_KEYS.contains key then .proto key else .undefined)
  | .val (.arr xs) =>
      .ok (if key = "length" then .val (.num xs.length)
           else match canonIndex key with
                | some i =>
                    match xs.get? i with
                    | some x => .val x
                    | none => .undefined
                | none => if OBJ_PROTO_KEYS.contains key then .proto key else .undefined)
  | .val (.str s) =>
      .ok (if key = "length" then .val (.num s.length)
           else match canonIndex key with
                | some i =>
                    match s.data.get? i with
                    | some c => .val (.str (String.mk [c]))
                    | none => .undefined
                | none => if OBJ_PROTO_KEYS.contains key then .proto key else .undefined)
  | .val (.num _) => .ok (if OBJ_PROTO_KEYS.contains key then .proto key else .undefined)
  | .val (.bool _) => .ok (if OBJ_PROTO_KEYS.contains key then .proto key else .undefined)
  | .proto _ => .ok .undefined

/-- JS numeric read `cur[i]` (from `current[key][parseInt(index)]`);
no prototype has numeric own properties. -/
def jsIndexGet (cur : JsVal) (i : Nat) : Except String JsVal :=
  match cur with
  | .undefined => .error ("Cannot read properties of undefined (reading '" ++ toString i ++ "')")
  | .val .null => .error ("Cannot read properties of null (reading '" ++ toString i ++ "')")
  | .val (.obj fs) =>
      .ok (match lookupField fs (toString i) with
           | some v => .val v
           | none => .undefined)
  | .val (.arr xs) =>
      .ok (match xs.get? i with
           | some x => .val x
           | none => .undefined)
  | .val (.str s) =>
      .ok (match s.data.get? i with
           | some c => .val (.str (String.mk [c]))
           | none => .undefined)
  | .val (.num _) => .ok .undefined
  | .val (.bool _) => .ok .undefined
  | .proto _ => .ok .undefined

/-- Strict-mode JS assignment `cur[key] = v`, returning the updated
container. Assigning to `undefined`/`null` or to a primitive throws; a
non-index property set on an array is dropped by `JSON.stringify`, so
it leaves the array unchanged; host objects are extensible, so the
assignment succeeds but never alters the parsed tree — likewise,
writing back a child that was an inherited member creates no own
property on the parent. -/
def jsSetField (cur : JsVal) (key : String) (v : JsVal) : Except String JsVal :=
  match cur with
  | .undefined => .error ("Cannot set properties of undefined (setting '" ++ key ++ "')")
  | .val .null => .error ("Cannot set properties of null (setting '" ++ key ++ "')")
  | .val (.obj fs) =>
      .ok (match v with
           | .val w => .val (.obj (setField fs key w))
           | _ => .val (.obj fs))
  | .val (.arr xs) =>
      .ok (match v, canonIndex key with
           | .val w, some i => .val (.arr (setArr xs i w))
           | _, _ => .val (.arr xs))
  | .val (.str _) => .error ("Cannot create property '" ++ key ++ "' on string")
  | .val (.num _) => .error ("Cannot create property '" ++ key ++ "' on number")
  | .val (.bool _) => .error ("Cannot create property '" ++ key ++ "' on boolean")
  | .proto name => .ok (.proto name)

/-- Strict-mode JS assignment `cur[i] = v` with a numeric index. -/
def jsIndexSet (cur : JsVal) (i : Nat) (v : JsVal) : Except String JsVal :=
  match cur with
  | .undefined => .error ("Cannot set properties of undefined (setting '" ++ toString i ++ "')")
  | .val .null => .error ("Cannot set properties of null (setting '" ++ toString i ++ "')")
  | .val (.obj fs) =>
      .ok (match v with
           | .val w => .val (.obj (setField fs (toString i) w))
           | _ => .val (.obj fs))
  | .val (.arr xs) =>
      .ok (match v with
           | .val w => .val (.arr (setArr xs i w))
           | _ => .val (.arr xs))
  | .val (.str _) => .error ("Cannot assign to read only property '" ++ toString i ++ "' of string")
  | .val (.num _) => .error ("Cannot create property '" ++ toString i ++ "' on number")
  | .val (.bool _) => .error ("Cannot create property '" ++ toString i ++ "' on boolean")
  | .proto name => .ok (.proto name)

/-- The traversal loop plus final assignment of `applyJSONPath`
(part_005, lines 292-311), rebuilding the walked path functionally.
`ps` are the intermediate segments (the popped list), `lastP` the final
segment. -/
def setPath : JsVal → List String → String → Json → Except String JsVal
  | cur, [], lastP, v =>
      (match parseSeg lastP with
       | some (key, idx) =>
           match jsGetField cur key with
           | .ok child =>
               match jsIndexSet child idx (.val v) with
               | .ok child' => jsSetField cur key child'
               | .error e => .error e
           | .error e => .error e
       | none => jsSetField cur lastP (.val v))
  | cur, p :: ps, lastP, v =>
      (match parseSeg p with
       | some (key, idx) =>
           match jsGetField cur key with
           | .ok child =>
               match jsIndexGet child idx with
               | .ok sub =>
                   match setPath sub ps lastP v with
                   | .ok sub' =>
                       match jsIndexSet child idx sub' with
                       | .ok child' => jsSetField cur key child'
                       | .error e => .error e
                   | .error e => .error e
               | .error e => .error e
           | .error e => .error e
       | none =>
           match jsGetField cur p with
           | .ok sub =>
               match setPath sub ps lastP v with
               | .ok sub' => jsSetField cur p sub'
               | .error e => .error e
           | .error e => .error e)

/-- `RuleEngine.applyJSONPath` (part_005, lines 288-314):
`const parts = path.split('.'); const lastPart = parts.pop()!;` then the
walk and write. A thrown `TypeError` is the `.error` case; a successful
walk returns the (possibly unchanged) root tree. -/
def applyJSONPath (obj : Json) (path : String) (value : Json) : Except String Json :=
  let parts := jsSplit '.' path
  match setPath (.val obj) parts.dropLast (parts.getLastD "") value with
  | .ok (.val j') => .ok j'
  | .ok _ => .ok obj
  | .error e => .error e

/-! ### Body modification (`RuleEngine.applyBodyModification` and helpers,
part_005 lines 190-282) -/

/-- `RuleEngine.modifyJSONBody` (part_005, lines 225-251). `parse` and
`stringify` stand for `JSON.parse` / `JSON.stringify`; any `.error`
escapes to the caller's `catch`. Bodies are strings (an `ArrayBuffer`
body stands for the text `TextDecoder` produces from it). -/
def modifyJSONBody (parse : String → Except String Json) (stringify : Json → String)
    (action : BodyModification) (modified : ModifiedRequest) :
    Except String ModifiedRequest :=
  match parse (modified.body.getD "") with
  | .error e => .error e
  | .ok jsonData =>
      match action.modification with
      | .jsonPath path value =>
          match applyJSONPath jsonData path value with
          | .error e => .error e
          | .ok jsonData' =>
              let newBody := stringify jsonData'
              .ok { modified with
                      body := some newBody,
                      headers := setH modified.headers "Content-Length"
                        (toString newBody.utf8ByteSize),
                      modifications := modified.modifications ++
                        ["Modified JSON path: " ++ path] }
      | .replace content =>
          match parse content with
          | .error e => .error e
          | .ok jsonData' =>
              let newBody := stringify jsonData'
              .ok { modified with
                      body := some newBody,
                      headers := setH modified.headers "Content-Length"
                        (toString newBody.utf8ByteSize),
                      modifications := modified.modifications ++
                        ["Replaced entire JSON body"] }

/-- `RuleEngine.modifyTextBody` (part_005, lines 253-265). -/
def modifyTextBody (action : BodyModification) (modified : ModifiedRequest) :
    ModifiedRequest :=
  match action.modification with
  | .replace content =>
      { modified with
          body := some content,
          headers := setH modified.headers "Content-Length" (toString content.utf8ByteSize),
          modifications := modified.modifications ++ ["Replaced text body"] }
  | .jsonPath _ _ => modified

/-- `RuleEngine.modifyBinaryBody` (part_005, lines 267-282); string
content, byte length as UTF-8 length. -/
def modifyBinaryBody (action : BodyModification) (modified : ModifiedRequest) :
    ModifiedRequest :=
  match action.modification with
  | .replace content =>
      { modified with
          body := some content,
          headers := setH modified.headers "Content-Length" (toString content.utf8ByteSize),
          modifications := modified.modifications ++ ["Replaced binary body"] }
  | .jsonPath _ _ => modified

/-- `RuleEngine.applyBodyModification` (part_005, lines 190-223). The JS
`if (!modified.body)` guard is falsy for both a missing body and the
empty string. The `try/catch` is the outer `match` on `Except`. -/
def applyBodyModification (parse : String → Except String Json) (stringify : Json → String)
    (action : BodyModification) (modified : ModifiedRequest) : ModifiedRequest :=
  if modified.body = none ∨ modified.body = some "" then
    { modified with modifications := modified.modifications ++ ["No body to modify"] }
  else
    match (match action.contentType with
           | .json => modifyJSONBody parse stringify action modified
           | .text => .ok (modifyTextBody action modified)
           | .binary => .ok (modifyBinaryBody action modified)) with
    | .ok m => m
    | .error msg =>
        { modified with modifications := modified.modifications ++
            ["Error modifying body: " ++ msg] }

/-! ### Evaluation (`RuleEngine.evaluateRule` / `matchesURLPattern`,
part_005 lines 43-67)

For a wildcard string the source escapes every regex metacharacter
except `*`, turns each `*` into `.*`, and tests the anchored regex
`^...$`. The language of that regex is: the URL decomposes into the
pattern's literal chunks (the pieces between `*`s) separated by
arbitrary strings. `globStar cs s` decides whether `s` is in the
language of `.*c₁.*c₂⋯.*cₙ` read off the chunk list `cs`. -/

/-- Matcher for the regex fragment `.*c₁.*c₂⋯.*cₙ` (one `.*` before each
chunk, anchored at the end). -/
def globStar : List (List Char) → List Char → Bool
  | [], s => s.isEmpty
  | c :: cs, s => s.tails.any (fun t => c.isPrefixOf t && globStar cs (t.drop c.length))

/-- The anchored wildcard regex test built by `matchesURLPattern`:
first chunk at the start, then `.*`-separated chunks to the end. -/
def wildcardMatch (pattern url : String) : Bool :=
  match jsSplit '*' pattern with
  | [] => false
  | c :: cs => c.data.isPrefixOf url.data && globStar (cs.map String.data) (url.data.drop c.data.length)

/-- `RuleEngine.matchesURLPattern` (part_005, lines 54-67). -/
def matchesURLPattern (pattern : URLPattern) (url : String) : Bool :=
  match pattern with
  | .regex test => test url
  | .wildcard p => wildcardMatch p url

/-- `RuleEngine.evaluateRule` (part_005, lines 43-49). -/
def evaluateRule (rule : Rule) (request : RequestInfo) : Bool :=
  if !rule.enabled then false
  else matchesURLPattern rule.urlPattern request.url

/-- `RuleEngine.applyRule` (part_005, lines 79-102). -/
def applyRule (replaceFirst : String → String → String → Except String String)
    (parseURL : String → Except String Unit)
    (parse : String → Except String Json) (stringify : Json → String)
    (rule : Rule) (request : RequestInfo) : ModifiedRequest :=
  let modified : ModifiedRequest :=
    { url := request.url, method := request.method, headers := request.headers,
      body := request.body, modifications := [] }
  match rule.action with
  | .modifyHeaders a => applyHeaderModifications a modified
  | .redirect a => applyURLRedirection replaceFirst parseURL a modified request
  | .modifyBody a => applyBodyModification parse stringify a modified
  | .mockResponse a =>
      { modified with modifications := modified.modifications ++
          ["Mock response: " ++ toString a.statusCode] }

/-! ### Logger (src/logger/Logger.ts, part_017) -/

/-- `LogEntry` in src/types (part_014); timestamps in milliseconds. -/
structure LogEntry where
  id : String
  timestamp : Int
  url : String
  method : String
  statusCode : Option Int
  requestHeaders : HMap
  responseHeaders : Option HMap
  appliedRules : List String
  modifications : List String
deriving DecidableEq

/-- `LogFilter` in src/types (part_014); `dateRange` is `(start, end)`. -/
structure LogFilter where
  urlPattern : Option String
  method : Option String
  statusCode : Option Int
  hasModifications : Option Bool
  dateRange : Option (Int × Int)

/-- `Logger`'s mutable state: the entry list and the id counter
(part_017, lines 27-28). -/
structure LoggerState where
  logs : List LogEntry
  logIdCounter : Nat

/-- `SENSITIVE_HEADERS` (part_017, lines 16-24). -/
def SENSITIVE_HEADERS : List String :=
  ["authorization", "cookie", "set-cookie", "proxy-authorization",
   "www-authenticate", "x-api-key", "api-key"]

/-- JS `String#startsWith`, character-wise. -/
def strStartsWith (s p : String) : Bool := p.data.isPrefixOf s.data

/-- `Logger.filterSensitiveData` (part_017, lines 176-196). The rebuild
loop over `Object.entries` preserves key order. -/
def filterSensitiveData (url : String) (headers : HMap) : HMap :=
  if strStartsWith url "https://" then
    headers.map (fun kv =>
      if SENSITIVE_HEADERS.contains (jsToLower kv.1) then (kv.1, "[FILTERED]") else kv)
  else headers

/-- One rule's contribution in `Logger.extractModifications`
(part_017, lines 204-223). -/
def ruleModDescriptions (rule : Rule) : List String :=
  match rule.action with
  | .modifyHeaders a =>
      (if a.requestHeaders.isSome then ["Modified request headers (" ++ rule.name ++ ")"] else [])
        ++
      (if a.responseHeaders.isSome then ["Modified response headers (" ++ rule.name ++ ")"] else [])
  | .redirect a => ["Redirected to " ++ a.destination ++ " (" ++ rule.name ++ ")"]
  | .modifyBody a =>
      let target := match a.target with | .request => "request" | .response => "response"
      ["Modified " ++ target ++ " body (" ++ rule.name ++ ")"]
  | .mockResponse a =>
      ["Mocked response with status " ++ toString a.statusCode ++ " (" ++ rule.name ++ ")"]

/-- `Logger.extractModifications` (part_017, lines 201-227): the push
loop over the rules. -/
def extractModifications (rules : List Rule) : List String :=
  rules.foldl (fun acc rule => acc ++ ruleModDescriptions rule) []

/-- `Logger.generateLogId` (part_017, lines 232-234); `Date.now()` is
the explicit `now` parameter. -/
def generateLogId (now : Int) (counter : Nat) : String :=
  "log-" ++ toString now ++ "-" ++ toString counter

/-- The request snapshot `RequestInfo` of Logger.ts (part_017, lines
4-9) — distinct from the engine's `RequestInfo`: it carries a timestamp
and no body. -/
structure LogRequestInfo where
  url : String
  method : String
  headers : HMap
  timestamp : Int

/-- `ResponseInfo` (part_017, lines 11-14). -/
structure ResponseInfo where
  statusCode : Int
  headers : HMap

/-- `Logger.logRequest` (part_017, lines 33-45). -/
def logRequest (now : Int) (st : LoggerState) (request : LogRequestInfo)
    (appliedRules : List Rule) : LoggerState :=
  let entry : LogEntry :=
    { id := generateLogId now st.logIdCounter,
      timestamp := request.timestamp,
      url := request.url,
      method := request.method,
      statusCode := none,
      requestHeaders := filterSensitiveData request.url request.headers,
      responseHeaders := none,
      appliedRules := appliedRules.map (·.id),
      modifications := extractModifications appliedRules }
  { logs := st.logs ++ [entry], logIdCounter := st.logIdCounter + 1 }

/-- Update the first list element satisfying `p` (the `Array#find` +
in-place mutation pattern); `none` when no element matches. -/
def updateFirst (p : LogEntry → Bool) (f : LogEntry → LogEntry) :
    List LogEntry → Option (List LogEntry)
  | [] => none
  | e :: rest =>
      if p e then some (f e :: rest)
      else (updateFirst p f rest).map (e :: ·)

/-- The correlation predicate of `Logger.logResponse` (part_017, lines
52-57). JS `!log.statusCode` is falsy for both `undefined` and `0`. -/
def correlates (request : LogRequestInfo) (log : LogEntry) : Bool :=
  log.url == request.url && log.method == request.method &&
    (log.statusCode == none || log.statusCode == some 0) &&
    (log.timestamp - request.timestamp).natAbs < 5000

/-- The merge performed on a found entry by `Logger.logResponse`
(part_017, lines 59-72). -/
def mergeResponse (response : ResponseInfo) (request : LogRequestInfo)
    (appliedRules : List Rule) (e : LogEntry) : LogEntry :=
  { e with
      statusCode := some response.statusCode,
      responseHeaders := some (filterSensitiveData request.url response.headers),
      appliedRules := e.appliedRules ++
        ((appliedRules.map (·.id)).filter (fun i => !e.appliedRules.contains i)),
      modifications := e.modifications ++
        ((extractModifications appliedRules).filter
          (fun m => !e.modifications.contains m)) }

/-- `Logger.logResponse` (part_017, lines 50-89). -/
def logResponse (now : Int) (st : LoggerState) (response : ResponseInfo)
    (request : LogRequestInfo) (appliedRules : List Rule) : LoggerState :=
  match updateFirst (correlates request) (mergeResponse response request appliedRules) st.logs with
  | some logs' => { st with logs := logs' }
  | none =>
      let entry : LogEntry :=
        { id := generateLogId now st.logIdCounter,
          timestamp := request.timestamp,
          url := request.url,
          method := request.method,
          statusCode := some response.statusCode,
          requestHeaders := filterSensitiveData request.url request.headers,
          responseHeaders := some (filterSensitiveData request.url response.headers),
          appliedRules := appliedRules.map (·.id),
          modifications := extractModifications appliedRules }
      { logs := st.logs ++ [entry], logIdCounter := st.logIdCounter + 1 }

/-- Ascending-timestamp comparison used by the `sort` call in
`Logger.getLogs` (part_017, line 130). -/
def tsLE (a b : LogEntry) : Prop := a.timestamp ≤ b.timestamp

instance : DecidableRel tsLE := fun a b => inferInstanceAs (Decidable (a.timestamp ≤ b.timestamp))

instance : IsTotal LogEntry tsLE := ⟨fun a b => Int.le_total a.timestamp b.timestamp⟩

instance : IsTrans LogEntry tsLE := ⟨fun _ _ _ h h' => Int.le_trans h h'⟩

/-- `Logger.getLogs` (part_017, lines 94-131): the successive `filter`
calls, then the chronological sort. `rtest pat url` stands for
`new RegExp(pat).test(url)`. The `if (filter.urlPattern)` and
`if (filter.method)` guards are JS **string truthiness**: a supplied
empty string skips that filter; `statusCode` and `hasModifications` are
guarded by explicit `!== undefined` checks, and `dateRange` by object
truthiness (presence). The sort is modelled by `insertionSort`, which
agrees with the source's comparator sort on the properties stated about
it (a sorted permutation of its input). -/
def getLogs (rtest : String → String → Bool) (st : LoggerState)
    (filter : Option LogFilter) : List LogEntry :=
  let l0 := st.logs
  let l5 :=
    match filter with
    | none => l0
    | some f =>
        let l1 := match f.urlPattern with
                  | none => l0
                  | some pat => if pat = "" then l0
                                else l0.filter (fun log => rtest pat log.url)
        let l2 := match f.method with
                  | none => l1
                  | some m => if m = "" then l1
                              else l1.filter (fun log => log.method == m)
        let l3 := match f.statusCode with
                  | none => l2
                  | some sc => l2.filter (fun log => log.statusCode == some sc)
        let l4 := match f.hasModifications with
                  | none => l3
                  | some hm => l3.filter (fun log =>
                      if hm then log.modifications.length > 0
                      else log.modifications.length == 0)
        match f.dateRange with
        | none => l4
        | some (s, e) => l4.filter (fun log => s ≤ log.timestamp && log.timestamp ≤ e)
  l5.insertionSort tsLE

/-- `Logger.clearLogs` (part_017, lines 136-142). -/
def clearLogs (st : LoggerState) (olderThan : Option Int) : LoggerState :=
  match olderThan with
  | some cutoff => { st with logs := st.logs.filter (fun log => cutoff ≤ log.timestamp) }
  | none => { st with logs := [] }

/-- `Logger.applyRetentionPolicy` (part_017, lines 161-171): drop
entries older than the cutoff, then `slice(-maxEntries)` — the last
`maxEntries` entries **in storage order**, with no re-sort. The
`setDate` cutoff arithmetic is modelled as `now - days·86400000` ms.
JS `slice(-0)` is `slice(0)`, keeping every entry. -/
def applyRetentionPolicy (now : Int) (st : LoggerState)
    (retentionDays : Int) (maxEntries : Nat) : LoggerState :=
  let cutoff := now - retentionDays * 86400000
  let kept := st.logs.filter (fun log => cutoff ≤ log.timestamp)
  if maxEntries < kept.length then
    { st with logs := if maxEntries = 0 then kept else kept.drop (kept.length - maxEntries) }
  else
    { st with logs := kept }

/-! ### Specification-side definitions

These follow the specification's words (not the source) and are compared
against the source embeddings above. -/

/-- The retention policy as the specification describes it: drop
entries older than the cutoff, **sort the remainder by timestamp
ascending**, then keep only the `maxEntries` most recent. -/
def specRetention (now : Int) (logs : List LogEntry)
    (retentionDays : Int) (maxEntries : Nat) : List LogEntry :=
  let cutoff := now - retentionDays * 86400000
  let kept := (logs.filter (fun log => cutoff ≤ log.timestamp)).insertionSort tsLE
  if maxEntries < kept.length then kept.drop (kept.length - maxEntries) else kept

/-! ### Concrete fixtures for witnesses and counterexamples -/

/-- A log entry with timestamp 200 ms. -/
def entryT200 : LogEntry :=
  { id := "a", timestamp := 200, url := "https://x.com", method := "GET",
    statusCode := none, requestHeaders := [], responseHeaders := none,
    appliedRules := [], modifications := [] }

/-- A log entry with timestamp 100 ms, stored after `entryT200`. -/
def entryT100 : LogEntry :=
  { id := "b", timestamp := 100, url := "https://x.com", method := "GET",
    statusCode := none, requestHeaders := [], responseHeaders := none,
    appliedRules := [], modifications := [] }

/-- A benign `replaceFirst` standing for `url.replace(regex, sub)`. -/
def okReplace : String → String → String → Except String String :=
  fun _ _ url => .ok url

/-- A `new URL` model that rejects every string with message "Invalid URL". -/
def rejectURL : String → Except String Unit :=
  fun _ => .error "Invalid URL"

/-- A `new URL` model that accepts every string. -/
def acceptURL : String → Except String Unit :=
  fun _ => .ok ()

/-- A `JSON.parse` model returning the fixed object `{"a": 1}`. -/
def parseConstA : String → Except String Json :=
  fun _ => .ok (.obj [("a", .num 1)])

/-- A `JSON.stringify` model. -/
def stringifyEmpty : Json → String :=
  fun _ => ""

/-- A concrete request for witnesses. -/
def reqGet : RequestInfo :=
  { url := "https://api.example.com/foo", method := "GET",
    headers := [("Accept", "text/html")], body := none }

/-- A concrete redirect rule with an unparseable static destination. -/
def ruleBadRedirect : Rule :=
  { id := "1", name := "r", enabled := true, priority := 1,
    urlPattern := .wildcard "*",
    action := .redirect { destination := "not a url", regexSubstitution := none },
    createdAt := 0, modifiedAt := 0 }

/-- A concrete header rule with no `requestHeaders` but one
`responseHeaders` operation. -/
def ruleRespHeadersOnly : Rule :=
  { id := "2", name := "s", enabled := true, priority := 1,
    urlPattern := .wildcard "*",
    action := .modifyHeaders
      { requestHeaders := none,
        responseHeaders := some [{ operation := .set, header := "X-T", value := some "v" }] },
    createdAt := 0, modifiedAt := 0 }

/-! ### Claim theorems -/

/-- C2: the spec says `applyRetentionPolicy` re-sorts the surviving
entries by timestamp ascending before trimming to `maxEntries`, so that
the most recent entries are kept regardless of storage order. The code
does no such sort: it keeps the last `maxEntries` entries in storage
order (`slice(-maxEntries)`), contradicting both the spec and the
source's own comment "keep most recent". With the newer entry stored
first, the code keeps the **older** entry while the spec-described
policy keeps the newer one. -/
theorem c2_retention_no_sort :
    (applyRetentionPolicy 0 { logs := [entryT200, entryT100], logIdCounter := 0 } 0 1).logs
        = [entryT100]
      ∧ specRetention 0 [entryT200, entryT100] 0 1 = [entryT200]
      ∧ entryT100.timestamp < entryT200.timestamp := by
  refine ⟨?_, ?_, ?_⟩ <;> decide

/-- C8: URL redirection never mutates the method or the body — both on
the `applyURLRedirection` transform itself (success or failure), and
through `applyRule` for any rule whose action is a redirect. -/
theorem c8_redirect_preserves_method_body :
    ∀ (replaceFirst : String → String → String → Except String String)
      (parseURL : String → Except String Unit)
      (parse : String → Except String Json) (stringify : Json → String)
      (a : URLRedirection) (m : ModifiedRequest) (orig : RequestInfo)
      (rule : Rule) (req : RequestInfo) (a' : URLRedirection),
      ((applyURLRedirection replaceFirst parseURL a m orig).method = m.method
        ∧ (applyURLRedirection replaceFirst parseURL a m orig).body = m.body)
      ∧ (rule.action = .redirect a' →
          (applyRule replaceFirst parseURL parse stringify rule req).method = req.method
          ∧ (applyRule replaceFirst parseURL parse stringify rule req).body = req.body) := by
  intro replaceFirst parseURL parse stringify a m orig rule req a'
  have frame : ∀ (a₀ : URLRedirection) (m₀ : ModifiedRequest) (o₀ : RequestInfo),
      (applyURLRedirection replaceFirst parseURL a₀ m₀ o₀).method = m₀.method
      ∧ (applyURLRedirection replaceFirst parseURL a₀ m₀ o₀).body = m₀.body := by
    intro a₀ m₀ o₀
    unfold applyURLRedirection
    cases redirectAttempt replaceFirst parseURL a₀ o₀.url <;> simp
  refine ⟨frame a m orig, fun h => ?_⟩
  simp only [applyRule, h]
  exact frame a' _ req

/-- C8 witness: the frame property evaluated at a concrete redirect
rule and request. -/
theorem c8_redirect_preserves_method_body_witness :
    (applyRule okReplace rejectURL parseConstA stringifyEmpty ruleBadRedirect reqGet).method
        = reqGet.method
      ∧ (applyRule okReplace rejectURL parseConstA stringifyEmpty ruleBadRedirect reqGet).body
        = reqGet.body :=
  (c8_redirect_preserves_method_body okReplace rejectURL parseConstA stringifyEmpty
    { destination := "not a url", regexSubstitution := none }
    { url := "u", method := "GET", headers := [], body := none, modifications := [] }
    reqGet ruleBadRedirect reqGet
    { destination := "not a url", regexSubstitution := none }).2 rfl

/-- C10: header modification only ever processes `requestHeaders`.
With `requestHeaders` absent the transform is the identity even when
`responseHeaders` carries operations, the trace stays empty through
`applyRule`, and the result never depends on `responseHeaders` at all. -/
theorem c10_response_headers_ignored :
    ∀ (rq rs rs' : Option (List HeaderOperation)) (m : ModifiedRequest)
      (replaceFirst : String → String → String → Except String String)
      (parseURL : String → Except String Unit)
      (parse : String → Except String Json) (stringify : Json → String)
      (rule : Rule) (req : RequestInfo),
      (applyHeaderModifications { requestHeaders := none, responseHeaders := rs } m = m)
      ∧ (applyHeaderModifications { requestHeaders := rq, responseHeaders := rs } m
          = applyHeaderModifications { requestHeaders := rq, responseHeaders := rs' } m)
      ∧ (rule.action = .modifyHeaders { requestHeaders := none, responseHeaders := rs } →
          (applyRule replaceFirst parseURL parse stringify rule req).headers = req.headers
          ∧ (applyRule replaceFirst parseURL parse stringify rule req).modifications = []) := by
  intro rq rs rs' m replaceFirst parseURL parse stringify rule req
  refine ⟨rfl, rfl, fun h => ?_⟩
  simp only [applyRule, h]
  exact ⟨rfl, rfl⟩

/-- C10 witness: a rule carrying only `responseHeaders` operations
leaves a concrete request's headers and trace untouched. -/
theorem c10_response_headers_ignored_witness :
    (applyRule okReplace acceptURL parseConstA stringifyEmpty ruleRespHeadersOnly reqGet).headers
        = reqGet.headers
      ∧ (applyRule okReplace acceptURL parseConstA stringifyEmpty
          ruleRespHeadersOnly reqGet).modifications = [] :=
  (c10_response_headers_ignored none
      (some [{ operation := .set, header := "X-T", value := some "v" }]) none
      { url := "u", method := "GET", headers := [], body := none, modifications := [] }
      okReplace acceptURL parseConstA stringifyEmpty ruleRespHeadersOnly reqGet).2.2 rfl

/-- C5: when the candidate redirect URL (regex substitution result or
the verbatim destination) fails URL validation, `applyRule` keeps the
original URL, appends the "Error: Invalid URL redirection - <message>"
trace entry, and returns normally (no exception escapes — the embedding
is a total function). -/
theorem c5_invalid_redirect_url :
    ∀ (replaceFirst : String → String → String → Except String String)
      (parseURL : String → Except String Unit)
      (parse : String → Except String Json) (stringify : Json → String)
      (rule : Rule) (req : RequestInfo) (a : URLRedirection) (c msg : String),
      rule.action = .redirect a →
      (match a.regexSubstitution with
       | some sub => replaceFirst a.destination sub req.url
       | none => Except.ok a.destination) = .ok c →
      parseURL c = .error msg →
      (applyRule replaceFirst parseURL parse stringify rule req).url = req.url
      ∧ (applyRule replaceFirst parseURL parse stringify rule req).modifications
          = ["Error: Invalid URL redirection - " ++ msg]
      ∧ (applyRule replaceFirst parseURL parse stringify rule req).method = req.method
      ∧ (applyRule replaceFirst parseURL parse stringify rule req).body = req.body := by
  intro replaceFirst parseURL parse stringify rule req a c msg hact hc hp
  have hattempt : redirectAttempt replaceFirst parseURL a req.url = .error msg := by
    unfold redirectAttempt
    cases hsub : a.regexSubstitution with
    | none =>
        simp only [hsub] at hc
        cases hc
        simp [hp]
    | some sub =>
        simp only [hsub] at hc
        simp [hc, hp]
  simp [applyRule, hact, applyURLRedirection, hattempt]

/-- C5 witness: destination "not a url" with an always-rejecting URL
parser leaves the URL unchanged and records the error trace. -/
theorem c5_invalid_redirect_url_witness :
    (applyRule okReplace rejectURL parseConstA stringifyEmpty ruleBadRedirect reqGet).url
        = reqGet.url
      ∧ (applyRule okReplace rejectURL parseConstA stringifyEmpty
          ruleBadRedirect reqGet).modifications
        = ["Error: Invalid URL redirection - " ++ "Invalid URL"] := by
  have h := c5_invalid_redirect_url okReplace rejectURL parseConstA stringifyEmpty
    ruleBadRedirect reqGet
    { destination := "not a url", regexSubstitution := none }
    "not a url" "Invalid URL" rfl rfl rfl
  exact ⟨h.1, h.2.1⟩

/-- The log-filter predicate exactly as the claim states it: the
conjunction of all supplied predicates (every supplied field
constrains), absent fields imposing no constraint. -/
def matchesFilter (rtest : String → String → Bool) (f : LogFilter) (log : LogEntry) : Bool :=
  (match f.urlPattern with
   | none => true
   | some pat => rtest pat log.url)
  && (match f.method with
      | none => true
      | some m => log.method == m)
  && (match f.statusCode with
      | none => true
      | some sc => log.statusCode == some sc)
  && (match f.hasModifications with
      | none => true
      | some hm => if hm then log.modifications.length > 0
                   else log.modifications.length == 0)
  && (match f.dateRange with
      | none => true
      | some (s, e) => s ≤ log.timestamp && log.timestamp ≤ e)

/-- The log-filter predicate as the code behaves (the amended claim):
like `matchesFilter`, except that a supplied but **empty** `urlPattern`
or `method` imposes no constraint — the JS guards
`if (filter.urlPattern)` / `if (filter.method)` are string truthiness. -/
def amendedMatchesFilter (rtest : String → String → Bool) (f : LogFilter) (log : LogEntry) :
    Bool :=
  (match f.urlPattern with
   | none => true
   | some pat => decide (pat = "") || rtest pat log.url)
  && (match f.method with
      | none => true
      | some m => decide (m = "") || (log.method == m))
  && (match f.statusCode with
      | none => true
      | some sc => log.statusCode == some sc)
  && (match f.hasModifications with
      | none => true
      | some hm => if hm then log.modifications.length > 0
                   else log.modifications.length == 0)
  && (match f.dateRange with
      | none => true
      | some (s, e) => s ≤ log.timestamp && log.timestamp ≤ e)

/-- A truthiness-guarded filter stage rewritten as a single filter. -/
theorem skip_or_filter (l : List LogEntry) (s : String) (p : LogEntry → Bool) :
    (if s = "" then l else l.filter p) = l.filter (fun log => decide (s = "") || p log) := by
  by_cases h : s = "" <;> simp [h]

/-- `updateFirst` success rewrites exactly one matched element, which is
a member of the output. -/
theorem updateFirst_mem {p : LogEntry → Bool} {f : LogEntry → LogEntry}
    {l l' : List LogEntry} (h : updateFirst p f l = some l') :
    ∃ e, e ∈ l ∧ f e ∈ l' := by
  induction l generalizing l' with
  | nil => simp [updateFirst] at h
  | cons e rest ih =>
      by_cases hp : p e
      · refine ⟨e, List.mem_cons_self e rest, ?_⟩
        simp [updateFirst, hp] at h
        simp [← h]
      · simp only [updateFirst, hp, if_neg, Bool.false_eq_true, ite_false, Option.map_eq_some'] at h
        obtain ⟨lr, hlr, rfl⟩ := h
        obtain ⟨a, ha, hfa⟩ := ih hlr
        exact ⟨a, List.mem_cons_of_mem _ ha, List.mem_cons_of_mem _ hfa⟩

/-- C3 counterexample: the claim as stated fails on a supplied empty
`method` filter. The JS truthiness guard `if (filter.method)` skips the
filter, so the code returns the stored GET entry, while the claim's
conjunction ("method by exact equality", constraining whenever the
field is supplied) excludes it. -/
theorem c3_counterexample :
    ¬ ((getLogs (fun _ _ => true) { logs := [entryT100], logIdCounter := 0 }
          (some { urlPattern := none, method := some "", statusCode := none,
                  hasModifications := none, dateRange := none })).Perm
        (([entryT100] : List LogEntry).filter
          (fun log => matchesFilter (fun _ _ => true)
            { urlPattern := none, method := some "", statusCode := none,
              hasModifications := none, dateRange := none } log))) := by
  intro h
  have h1 : getLogs (fun _ _ => true) { logs := [entryT100], logIdCounter := 0 }
      (some { urlPattern := none, method := some "", statusCode := none,
              hasModifications := none, dateRange := none }) = [entryT100] := by decide
  have h2 : ([entryT100] : List LogEntry).filter
      (fun log => matchesFilter (fun _ _ => true)
        { urlPattern := none, method := some "", statusCode := none,
          hasModifications := none, dateRange := none } log) = [] := by decide
  rw [h1, h2] at h
  simpa using h.length_eq

/-- C3 (amended): `getLogs` with a filter returns exactly the stored
entries satisfying the conjunction of all supplied predicates (regex
url test, exact method, exact status code, `hasModifications` iff
non-empty modification list, date range inclusive at both ends) —
except that a supplied but empty `urlPattern` or `method` imposes no
constraint (JS string truthiness) — and the result, with or without a
filter, is always sorted ascending by timestamp whatever the insertion
order was. -/
theorem c3_getLogs_filter_and_sort :
    ∀ (rtest : String → String → Bool) (st : LoggerState) (f : LogFilter),
      ((getLogs rtest st (some f)).Perm
          (st.logs.filter (fun log => amendedMatchesFilter rtest f log))
        ∧ List.Sorted tsLE (getLogs rtest st (some f)))
      ∧ ((getLogs rtest st none).Perm st.logs
        ∧ List.Sorted tsLE (getLogs rtest st none)) := by
  intro rtest st f
  refine ⟨⟨?_, List.sorted_insertionSort tsLE _⟩,
          (List.perm_insertionSort tsLE _), List.sorted_insertionSort tsLE _⟩
  have hchain : (getLogs rtest st (some f))
      = (st.logs.filter (fun log => amendedMatchesFilter rtest f log)).insertionSort tsLE := by
    obtain ⟨up, me, sc, hm, dr⟩ := f
    cases up <;> cases me <;> cases sc <;> cases hm <;> cases dr <;>
      (simp only [getLogs, skip_or_filter]
       simp [amendedMatchesFilter, List.filter_filter,
         Bool.and_assoc, Bool.and_comm, Bool.and_left_comm])
  rw [hchain]
  exact List.perm_insertionSort tsLE _

/-- C4: for an `https://` URL, logged headers have every
sensitive-named value (case-insensitive) replaced by "[FILTERED]" and
all other values verbatim; non-HTTPS headers are untouched. The same
`filterSensitiveData` result is what `logRequest` stores for request
headers and what `logResponse` stores for response headers (in both its
merge and new-entry branches). -/
theorem c4_sensitive_header_redaction :
    ∀ (url : String) (headers : HMap) (now : Int) (st : LoggerState)
      (req : LogRequestInfo) (resp : ResponseInfo) (rules : List Rule),
      (strStartsWith url "https://" = true →
        filterSensitiveData url headers
          = headers.map (fun kv =>
              if SENSITIVE_HEADERS.contains (jsToLower kv.1) then (kv.1, "[FILTERED]") else kv))
      ∧ (strStartsWith url "https://" = false → filterSensitiveData url headers = headers)
      ∧ (∃ e, (logRequest now st req rules).logs = st.logs ++ [e]
            ∧ e.requestHeaders = filterSensitiveData req.url req.headers)
      ∧ (∃ e, e ∈ (logResponse now st resp req rules).logs
            ∧ e.responseHeaders = some (filterSensitiveData req.url resp.headers)) := by
  intro url headers now st req resp rules
  refine ⟨fun h => by simp [filterSensitiveData, h],
          fun h => by simp [filterSensitiveData, h],
          ⟨_, rfl, rfl⟩, ?_⟩
  unfold logResponse
  cases h : updateFirst (correlates req) (mergeResponse resp req rules) st.logs with
  | some logs' =>
      obtain ⟨a, _, hfa⟩ := updateFirst_mem h
      exact ⟨mergeResponse resp req rules a, hfa, rfl⟩
  | none =>
      refine ⟨{ id := generateLogId now st.logIdCounter, timestamp := req.timestamp,
                url := req.url, method := req.method,
                statusCode := some resp.statusCode,
                requestHeaders := filterSensitiveData req.url req.headers,
                responseHeaders := some (filterSensitiveData req.url resp.headers),
                appliedRules := rules.map (·.id),
                modifications := extractModifications rules }, ?_, rfl⟩
      simp

/-- C4 witness: a concrete HTTPS URL filters `Authorization` and keeps
`Accept`; the same headers pass through untouched for an `http://` URL. -/
theorem c4_sensitive_header_redaction_witness :
    (strStartsWith "https://a.com" "https://" = true
      ∧ filterSensitiveData "https://a.com" [("Authorization", "secret"), ("Accept", "x")]
          = [("Authorization", "secret"), ("Accept", "x")].map (fun kv =>
              if SENSITIVE_HEADERS.contains (jsToLower kv.1) then (kv.1, "[FILTERED]") else kv))
    ∧ (strStartsWith "http://b.com" "https://" = false
      ∧ filterSensitiveData "http://b.com" [("Authorization", "secret")]
          = [("Authorization", "secret")]) :=
  ⟨⟨by decide,
    (c4_sensitive_header_redaction "https://a.com" [("Authorization", "secret"), ("Accept", "x")]
      0 ⟨[], 0⟩ ⟨"u", "GET", [], 0⟩ ⟨200, []⟩ []).1 (by decide)⟩,
   ⟨by decide,
    (c4_sensitive_header_redaction "http://b.com" [("Authorization", "secret")]
      0 ⟨[], 0⟩ ⟨"u", "GET", [], 0⟩ ⟨200, []⟩ []).2.1 (by decide)⟩⟩

/-- The specification's per-rule clause count: one description per
structurally present action clause — for `modifyHeaders`, presence of
the (possibly empty) `requestHeaders` / `responseHeaders` arrays; one
for every other action kind. -/
def specClauseCount (rule : Rule) : Nat :=
  match rule.action with
  | .modifyHeaders a =>
      (if a.requestHeaders.isSome then 1 else 0) + (if a.responseHeaders.isSome then 1 else 0)
  | .redirect _ => 1
  | .modifyBody _ => 1
  | .mockResponse _ => 1

/-- `extractModifications` is the concatenation of the per-rule
description lists. -/
theorem extractModifications_flatMap (rules : List Rule) :
    extractModifications rules = rules.flatMap ruleModDescriptions := by
  suffices h : ∀ acc, rules.foldl (fun acc rule => acc ++ ruleModDescriptions rule) acc
      = acc ++ rules.flatMap ruleModDescriptions by
    simpa using h []
  induction rules with
  | nil => simp [List.flatMap]
  | cons r rest ih => intro acc; simp [List.flatMap_cons, ih, List.append_assoc]

/-- Each rule contributes exactly `specClauseCount` descriptions. -/
theorem ruleModDescriptions_length (rule : Rule) :
    (ruleModDescriptions rule).length = specClauseCount rule := by
  cases hact : rule.action with
  | modifyHeaders a =>
      cases hrq : a.requestHeaders <;> cases hrs : a.responseHeaders <;>
        simp [ruleModDescriptions, specClauseCount, hact, hrq, hrs]
  | redirect a => simp [ruleModDescriptions, specClauseCount, hact]
  | modifyBody a => simp [ruleModDescriptions, specClauseCount, hact]
  | mockResponse a => simp [ruleModDescriptions, specClauseCount, hact]

/-- C9: the `modifications` list `logRequest` stores is the per-rule
concatenation of action-clause descriptions, with exactly one string
per structurally present clause: a `modifyHeaders` rule contributes its
"Modified request headers"/"Modified response headers" strings exactly
when the respective field is non-null — even when the array is empty —
and every redirect, body-modification and mock-response rule contributes
exactly one string. -/
theorem c9_one_description_per_present_clause :
    ∀ (rules : List Rule) (now : Int) (st : LoggerState) (req : LogRequestInfo)
      (rule : Rule) (a : HeaderModification),
      (extractModifications rules = rules.flatMap ruleModDescriptions)
      ∧ ((extractModifications rules).length = (rules.map specClauseCount).sum)
      ∧ (∃ e, (logRequest now st req rules).logs = st.logs ++ [e]
            ∧ e.modifications = extractModifications rules)
      ∧ (rule.action = .modifyHeaders a → a.requestHeaders = some [] →
          ("Modified request headers (" ++ rule.name ++ ")") ∈ ruleModDescriptions rule) := by
  intro rules now st req rule a
  refine ⟨extractModifications_flatMap rules, ?_, ⟨_, rfl, rfl⟩, fun hact hrq => ?_⟩
  · rw [extractModifications_flatMap, List.length_flatMap]
    congr 1
    exact List.map_congr_left (fun r _ => ruleModDescriptions_length r)
  · simp [ruleModDescriptions, hact, hrq]

/-- C9 witness: a header rule with an empty (but present)
`requestHeaders` array still yields its description string. -/
theorem c9_one_description_per_present_clause_witness :
    ("Modified request headers (" ++ "e" ++ ")") ∈ ruleModDescriptions
      { id := "9", name := "e", enabled := true, priority := 1,
        urlPattern := .wildcard "*",
        action := .modifyHeaders { requestHeaders := some [], responseHeaders := none },
        createdAt := 0, modifiedAt := 0 } :=
  (c9_one_description_per_present_clause [] 0 ⟨[], 0⟩ ⟨"u", "GET", [], 0⟩
      { id := "9", name := "e", enabled := true, priority := 1,
        urlPattern := .wildcard "*",
        action := .modifyHeaders { requestHeaders := some [], responseHeaders := none },
        createdAt := 0, modifiedAt := 0 }
      { requestHeaders := some [], responseHeaders := none }).2.2.2 rfl rfl

/-! ### C1: header modification as a fold -/

/-- One header operation as the claim literally states it: `Set`
overwrites, `Remove` deletes, `Append` concatenates ", value" onto an
**existing** value — whatever it is — and sets fresh only when the key
is absent. -/
def claimOpApply (hs : HMap) (op : HeaderOperation) : HMap :=
  match op.operation with
  | .set => setH hs op.header (op.value.getD "")
  | .remove => removeH hs op.header
  | .append =>
      match getH hs op.header with
      | some v => setH hs op.header (v ++ ", " ++ ovStr op.value)
      | none => setH hs op.header (op.value.getD "")

/-- One header operation as the code behaves (the amended claim):
like `claimOpApply`, except that `Append` onto an existing **empty**
value sets the value fresh — the JS guard `if (modified.headers[h])`
is string truthiness, so an empty value counts as absent. -/
def amendedOpApply (hs : HMap) (op : HeaderOperation) : HMap :=
  match op.operation with
  | .set => setH hs op.header (op.value.getD "")
  | .remove => removeH hs op.header
  | .append =>
      match getH hs op.header with
      | some v => if v = "" then setH hs op.header (op.value.getD "")
                  else setH hs op.header (v ++ ", " ++ ovStr op.value)
      | none => setH hs op.header (op.value.getD "")

/-- The single trace entry each operation contributes (it does not
depend on the current header state). -/
def headerTraceEntry (op : HeaderOperation) : String :=
  if SECURITY_RESTRICTED_HEADERS.contains (jsToLower op.header) then
    "Skipped restricted header: " ++ op.header
  else
    match op.operation with
    | .set => "Set header: " ++ op.header ++ " = " ++ ovStr op.value
    | .remove => "Removed header: " ++ op.header
    | .append => "Appended header: " ++ op.header ++ " += " ++ ovStr op.value

/-- Two appends with distinct prefixes differ (compare one character). -/
theorem strNeOfPrefixNe (p q x y : String) (i : Nat)
    (hp : i < p.data.length) (hq : i < q.data.length)
    (hne : p.data[i]? ≠ q.data[i]?) : p ++ x ≠ q ++ y := by
  intro h
  apply hne
  have hd : p.data ++ x.data = q.data ++ y.data := by
    simpa [String.data_append] using congrArg String.data h
  calc p.data[i]? = (p.data ++ x.data)[i]? := (List.getElem?_append_left hp).symm
    _ = (q.data ++ y.data)[i]? := by rw [hd]
    _ = q.data[i]? := List.getElem?_append_left hq

/-- String append is left-cancellative. -/
theorem strAppendLeftCancel {p a b : String} (h : p ++ a = p ++ b) : a = b := by
  apply String.ext
  have hd := congrArg String.data h
  simp only [String.data_append] at hd
  exact List.append_cancel_left hd

/-- Headers component of one `headerStep`: unchanged for a restricted
name, otherwise the amended per-op application. -/
theorem headerStep_headers (m : ModifiedRequest) (op : HeaderOperation) :
    (headerStep m op).headers
      = if SECURITY_RESTRICTED_HEADERS.contains (jsToLower op.header) then m.headers
        else amendedOpApply m.headers op := by
  by_cases hm : jsToLower op.header ∈ SECURITY_RESTRICTED_HEADERS
  · have hr : SECURITY_RESTRICTED_HEADERS.contains (jsToLower op.header) = true := by simpa using hm
    simp [headerStep, hm, hr]
  · have hr : SECURITY_RESTRICTED_HEADERS.contains (jsToLower op.header) = false := by simpa using hm
    cases hop : op.operation <;>
      simp [headerStep, amendedOpApply, hm, hr, hop]

/-- Trace component of one `headerStep`: exactly one entry appended. -/
theorem headerStep_modifications (m : ModifiedRequest) (op : HeaderOperation) :
    (headerStep m op).modifications = m.modifications ++ [headerTraceEntry op] := by
  by_cases hm : jsToLower op.header ∈ SECURITY_RESTRICTED_HEADERS
  · have hr : SECURITY_RESTRICTED_HEADERS.contains (jsToLower op.header) = true := by simpa using hm
    simp [headerStep, headerTraceEntry, hm, hr]
  · have hr : SECURITY_RESTRICTED_HEADERS.contains (jsToLower op.header) = false := by simpa using hm
    cases hop : op.operation <;>
      simp [headerStep, headerTraceEntry, hm, hr, hop]

/-- The header-op loop: headers are the fold of the non-restricted ops
(with the amended append semantics) and the trace grows by exactly one
entry per op. -/
theorem headerFold (ops : List HeaderOperation) (m : ModifiedRequest) :
    (ops.foldl headerStep m).headers
      = (ops.filter
          (fun op => !(SECURITY_RESTRICTED_HEADERS.contains (jsToLower op.header)))).foldl
          amendedOpApply m.headers
    ∧ (ops.foldl headerStep m).modifications
      = m.modifications ++ ops.map headerTraceEntry := by
  induction ops generalizing m with
  | nil => simp
  | cons op rest ih =>
      obtain ⟨ih1, ih2⟩ := ih (headerStep m op)
      rw [List.foldl_cons, List.filter_cons, List.map_cons]
      constructor
      · rw [ih1, headerStep_headers]
        by_cases hm : jsToLower op.header ∈ SECURITY_RESTRICTED_HEADERS
        · simp [hm]
        · simp [hm]
      · rw [ih2, headerStep_modifications, List.append_assoc]
        rfl

/-- Each op's trace entry equals "Skipped restricted header: h" exactly
when the op is restricted and names `h`. -/
theorem headerTraceEntry_skip_iff (op : HeaderOperation) (h : String) :
    (headerTraceEntry op = "Skipped restricted header: " ++ h)
      ↔ (SECURITY_RESTRICTED_HEADERS.contains (jsToLower op.header) ∧ op.header = h) := by
  by_cases hr : SECURITY_RESTRICTED_HEADERS.contains (jsToLower op.header)
  · simp only [headerTraceEntry, hr, if_true, true_and]
    exact ⟨fun he => strAppendLeftCancel he, fun he => by rw [he]⟩
  · simp only [headerTraceEntry, hr, if_false, Bool.false_eq_true, false_and, iff_false]
    cases hop : op.operation
    · rw [String.append_assoc, String.append_assoc]
      exact strNeOfPrefixNe "Set header: " "Skipped restricted header: " _ _ 1
        (by decide) (by decide) (by decide)
    · exact strNeOfPrefixNe "Removed header: " "Skipped restricted header: " _ _ 0
        (by decide) (by decide) (by decide)
    · rw [String.append_assoc, String.append_assoc]
      exact strNeOfPrefixNe "Appended header: " "Skipped restricted header: " _ _ 0
        (by decide) (by decide) (by decide)

/-- Count of "Skipped restricted header: h" entries in the trace: one
per restricted op naming `h`. -/
theorem traceSkipCount (ops : List HeaderOperation) (h : String) :
    (ops.map headerTraceEntry).count ("Skipped restricted header: " ++ h)
      = (ops.filter
          (fun op => SECURITY_RESTRICTED_HEADERS.contains (jsToLower op.header)
            && op.header == h)).length := by
  induction ops with
  | nil => simp
  | cons op rest ih =>
      by_cases hc : SECURITY_RESTRICTED_HEADERS.contains (jsToLower op.header)
      · have hcm : jsToLower op.header ∈ SECURITY_RESTRICTED_HEADERS := by simpa using hc
        by_cases hh : op.header = h
        · have he : headerTraceEntry op = "Skipped restricted header: " ++ h :=
            (headerTraceEntry_skip_iff op h).mpr ⟨hc, hh⟩
          subst hh
          simp [List.count_cons, List.filter_cons, he, hc, hcm, ih]
        · have he : headerTraceEntry op ≠ "Skipped restricted header: " ++ h :=
            fun hcon => hh ((headerTraceEntry_skip_iff op h).mp hcon).2
          simp [List.count_cons, List.filter_cons, he, hh, ih]
      · have he : headerTraceEntry op ≠ "Skipped restricted header: " ++ h :=
          fun hcon => hc ((headerTraceEntry_skip_iff op h).mp hcon).1
        have hcm : ¬ (jsToLower op.header ∈ SECURITY_RESTRICTED_HEADERS) := by simpa using hc
        have hcf : SECURITY_RESTRICTED_HEADERS.contains (jsToLower op.header) = false := by
          simpa using hc
        simp [List.count_cons, List.filter_cons, he, hcf, hcm, ih]

/-- C1 counterexample: the claim as stated fails on an existing header
with an **empty** value. The op `Append "X" "v"` on headers
`{X: ""}` yields `{X: "v"}` in the code (the JS truthiness guard treats
the empty value as absent) while the claim's fold — "Append
concatenates ', value' onto an existing value" — yields `{X: ", v"}`. -/
theorem c1_counterexample :
    ¬ ((applyHeaderModifications
          { requestHeaders := some [{ operation := .append, header := "X", value := some "v" }],
            responseHeaders := none }
          { url := "u", method := "GET", headers := [("X", "")], body := none,
            modifications := [] }).headers
        = ([({ operation := .append, header := "X", value := some "v" } : HeaderOperation)].filter
            (fun op => !(SECURITY_RESTRICTED_HEADERS.contains (jsToLower op.header)))).foldl
            claimOpApply [("X", "")]) := by
  decide

/-- C1 (amended): the final header map is the left-to-right fold of the
non-restricted ops over the input map, where Set overwrites, Remove
deletes, and Append concatenates ", value" onto an existing non-empty
value and sets the value fresh when the key is absent **or its current
value is the empty string**; every restricted-named op (lower-cased
name in the fixed set) leaves the map unchanged — it is dropped from
the fold — and contributes exactly one "Skipped restricted header:
<name>" trace entry per such op, processing continuing with the
remaining ops. -/
theorem c1_header_fold :
    ∀ (action : HeaderModification) (m : ModifiedRequest),
      (applyHeaderModifications action m).headers
        = ((action.requestHeaders.getD []).filter
            (fun op => !(SECURITY_RESTRICTED_HEADERS.contains (jsToLower op.header)))).foldl
            amendedOpApply m.headers
      ∧ ∃ t, (applyHeaderModifications action m).modifications = m.modifications ++ t
          ∧ ∀ h, t.count ("Skipped restricted header: " ++ h)
              = ((action.requestHeaders.getD []).filter
                  (fun op => SECURITY_RESTRICTED_HEADERS.contains (jsToLower op.header)
                    && op.header == h)).length := by
  intro action m
  obtain ⟨h1, h2⟩ := headerFold (action.requestHeaders.getD []) m
  exact ⟨h1, (action.requestHeaders.getD []).map headerTraceEntry, h2,
    fun h => traceSkipCount _ h⟩

/-! ### C7: rule evaluation and the wildcard regex language -/

/-- The language of the regex fragment `.*c₁.*c₂⋯.*cₙ` over the chunk
list: the word is the chunks in order, separated (and prefixed) by
arbitrary fillers, with nothing after the last chunk. -/
inductive StarLang : List (List Char) → List Char → Prop
  | nil : StarLang [] []
  | cons (w c : List Char) (cs : List (List Char)) (s : List Char) :
      StarLang cs s → StarLang (c :: cs) (w ++ c ++ s)

/-- The language of the anchored regex `matchesURLPattern` builds from a
wildcard pattern — every regex metacharacter except `*` escaped, `*`
replaced by `.*`, anchored by `^...$`: the URL starts with the first
literal chunk and the remainder lies in the `.*`-separated language of
the remaining chunks. -/
def WildSpec (p url : String) : Prop :=
  match jsSplit '*' p with
  | [] => False
  | c :: cs => ∃ rest, url.data = c.data ++ rest ∧ StarLang (cs.map String.data) rest

/-- `globStar` decides membership in the `StarLang` language. -/
theorem globStar_iff (cs : List (List Char)) (s : List Char) :
    globStar cs s = true ↔ StarLang cs s := by
  induction cs generalizing s with
  | nil =>
      simp only [globStar, List.isEmpty_iff]
      constructor
      · rintro rfl; exact StarLang.nil
      · intro h; cases h; rfl
  | cons c cs ih =>
      simp only [globStar, List.any_eq_true, Bool.and_eq_true]
      constructor
      · rintro ⟨t, hmem, hpre, hstar⟩
        obtain ⟨w, rfl⟩ := (List.mem_tails t _).mp hmem
        obtain ⟨r, rfl⟩ := List.isPrefixOf_iff_prefix.mp hpre
        rw [List.drop_left] at hstar
        rw [← List.append_assoc]
        exact StarLang.cons w c cs r (ih r |>.mp hstar)
      · intro h
        cases h with
        | cons w c cs r hr =>
            refine ⟨c ++ r, ?_, ?_, ?_⟩
            · exact (List.mem_tails _ _).mpr ⟨w, (List.append_assoc w c r).symm⟩
            · exact List.isPrefixOf_iff_prefix.mpr ⟨r, rfl⟩
            · rw [List.drop_left]
              exact (ih r).mpr hr

/-- The wildcard matcher decides membership in the wildcard regex
language. -/
theorem wildcardMatch_iff (p url : String) :
    wildcardMatch p url = true ↔ WildSpec p url := by
  unfold wildcardMatch WildSpec
  cases hsplit : jsSplit '*' p with
  | nil => simp
  | cons c cs =>
      simp only [Bool.and_eq_true]
      constructor
      · rintro ⟨hpre, hstar⟩
        obtain ⟨r, hr⟩ := List.isPrefixOf_iff_prefix.mp hpre
        refine ⟨r, hr.symm, ?_⟩
        have hdrop : url.data.drop c.data.length = r := by
          rw [← hr, List.drop_left]
        rw [hdrop] at hstar
        exact (globStar_iff _ r).mp hstar
      · rintro ⟨rest, hurl, hstar⟩
        refine ⟨List.isPrefixOf_iff_prefix.mpr ⟨rest, hurl.symm⟩, ?_⟩
        rw [hurl, List.drop_left]
        exact (globStar_iff _ rest).mpr hstar

/-- C7: `evaluateRule` returns false immediately for a disabled rule;
for an enabled rule with a pre-compiled regex pattern it returns that
regex's test on the URL; and for an enabled rule with a wildcard
pattern it returns true exactly when the whole URL is in the language
of the anchored regex built by escaping everything but `*` and turning
`*` into `.*`. -/
theorem c7_evaluate_rule :
    ∀ (rule : Rule) (req : RequestInfo),
      (rule.enabled = false → evaluateRule rule req = false)
      ∧ (∀ tf, rule.urlPattern = .regex tf → rule.enabled = true →
          evaluateRule rule req = tf req.url)
      ∧ (∀ p, rule.urlPattern = .wildcard p → rule.enabled = true →
          (evaluateRule rule req = true ↔ WildSpec p req.url)) := by
  intro rule req
  refine ⟨fun h => by simp [evaluateRule, h],
          fun tf hpat hen => by simp [evaluateRule, matchesURLPattern, hpat, hen],
          fun p hpat hen => ?_⟩
  rw [show evaluateRule rule req = wildcardMatch p req.url by
        simp [evaluateRule, matchesURLPattern, hpat, hen]]
  exact wildcardMatch_iff p req.url

/-- A disabled rule. -/
def ruleDisabled : Rule :=
  { id := "d", name := "d", enabled := false, priority := 1,
    urlPattern := .wildcard "*", action := .redirect ⟨"x", none⟩,
    createdAt := 0, modifiedAt := 0 }

/-- An enabled rule with a pre-compiled regex pattern. -/
def ruleRegexTrue : Rule :=
  { id := "r", name := "r", enabled := true, priority := 1,
    urlPattern := .regex (fun _ => true), action := .redirect ⟨"x", none⟩,
    createdAt := 0, modifiedAt := 0 }

/-- An enabled rule with the wildcard pattern `https://*`. -/
def ruleWildHttps : Rule :=
  { id := "w", name := "w", enabled := true, priority := 1,
    urlPattern := .wildcard "https://*", action := .redirect ⟨"x", none⟩,
    createdAt := 0, modifiedAt := 0 }

/-- C7 witness: a disabled rule evaluates to false, a regex rule
evaluates to its test result, and the wildcard rule `https://*`
matches `https://api.example.com/foo`. -/
theorem c7_evaluate_rule_witness :
    (evaluateRule ruleDisabled reqGet = false)
    ∧ (evaluateRule ruleRegexTrue reqGet = (fun (_ : String) => true) reqGet.url)
    ∧ WildSpec "https://*" reqGet.url :=
  ⟨(c7_evaluate_rule ruleDisabled reqGet).1 rfl,
   (c7_evaluate_rule ruleRegexTrue reqGet).2.1 (fun _ => true) rfl rfl,
   ((c7_evaluate_rule ruleWildHttps reqGet).2.2 "https://*" rfl rfl).mp (by decide)⟩

/-! ### C6: JSON-path writes with a missing intermediate segment -/

/-- One iteration of the traversal loop in `applyJSONPath` (part_005,
lines 293-302): resolve a single path segment from the current value. -/
def stepRead (cur : JsVal) (part : String) : Except String JsVal :=
  match parseSeg part with
  | some (key, idx) =>
      match jsGetField cur key with
      | .ok child => jsIndexGet child idx
      | .error e => .error e
  | none => jsGetField cur part

/-- The amended claim's failure condition, stated over the parsed JSON
structure: walking the intermediate (non-final) segments reaches an
object in which the next segment's key (the plain name, or the base
name before `[n]`) neither exists as an own property nor is one of the
`Object.prototype` names the JS property read would resolve through the
prototype chain. -/
inductive MissingMid : Json → List String → Prop
  | plainMissing (fs : List (String × Json)) (k : String) (ps : List String) :
      parseSeg k = none → lookupField fs k = none →
      OBJ_PROTO_KEYS.contains k = false →
      MissingMid (.obj fs) (k :: ps)
  | bracketMissing (fs : List (String × Json)) (k key : String) (idx : Nat) (ps : List String) :
      parseSeg k = some (key, idx) → lookupField fs key = none →
      OBJ_PROTO_KEYS.contains key = false →
      MissingMid (.obj fs) (k :: ps)
  | step (j j' : Json) (k : String) (ps : List String) :
      stepRead (.val j) k = .ok (.val j') → MissingMid j' ps →
      MissingMid j (k :: ps)

/-- Whether a path write threw. -/
def isJsonError {α : Type} : Except String α → Bool
  | .error _ => true
  | .ok _ => false

/-- A thrown write carries some message. -/
theorem isJsonError_exists {α : Type} {x : Except String α} (h : isJsonError x = true) :
    ∃ msg, x = .error msg := by
  cases x with
  | error e => exact ⟨e, rfl⟩
  | ok _ => simp [isJsonError] at h

/-- Walking or assigning from `undefined` always throws. -/
theorem setPath_undef_error (ps : List String) (lastP : String) (v : Json) :
    isJsonError (setPath .undefined ps lastP v) = true := by
  cases ps with
  | nil =>
      cases hp : parseSeg lastP with
      | none => simp [setPath, hp, jsSetField, isJsonError]
      | some kv => simp [setPath, hp, jsGetField, isJsonError]
  | cons p ps =>
      cases hp : parseSeg p with
      | none => simp [setPath, hp, jsGetField, isJsonError]
      | some kv => simp [setPath, hp, jsGetField, isJsonError]

/-- An intermediate segment that is neither an own property nor an
inherited `Object.prototype` name makes the whole path write throw:
no container is auto-created. -/
theorem setPath_missing_error {j : Json} {ps : List String}
    (hmiss : MissingMid j ps) :
    ∀ (lastP : String) (v : Json), isJsonError (setPath (.val j) ps lastP v) = true := by
  induction hmiss with
  | plainMissing fs k ps hpk hlk hpr =>
      intro lastP v
      have hprm : ¬ (k ∈ OBJ_PROTO_KEYS) := by simpa using hpr
      have hundef := setPath_undef_error ps lastP v
      cases hsp : setPath .undefined ps lastP v with
      | ok s => rw [hsp] at hundef; simp [isJsonError] at hundef
      | error e => simp [setPath, hpk, jsGetField, hlk, hpr, hprm, hsp, isJsonError]
  | bracketMissing fs k key idx ps hpk hlk hpr =>
      intro lastP v
      have hprm : ¬ (key ∈ OBJ_PROTO_KEYS) := by simpa using hpr
      simp [setPath, hpk, jsGetField, hlk, hpr, hprm, jsIndexGet, isJsonError]
  | step j j' k ps hstep hmiss ih =>
      intro lastP v
      unfold stepRead at hstep
      cases hpk : parseSeg k with
      | none =>
          simp only [hpk] at hstep
          cases hsp : setPath (.val j') ps lastP v with
          | ok s =>
              have := ih lastP v
              rw [hsp] at this
              simp [isJsonError] at this
          | error e => simp [setPath, hpk, hstep, hsp, isJsonError]
      | some kv =>
          obtain ⟨key, idx⟩ := kv
          simp only [hpk] at hstep
          cases hget : jsGetField (.val j) key with
          | error e => simp only [hget] at hstep; cases hstep
          | ok child =>
              simp only [hget] at hstep
              cases hsp : setPath (.val j') ps lastP v with
              | ok s =>
                  have := ih lastP v
                  rw [hsp] at this
                  simp [isJsonError] at this
              | error e => simp [setPath, hpk, hget, hstep, hsp, isJsonError]

/-- A body-modification action writing JSON path "toString.x". -/
def actProtoPath : BodyModification :=
  { target := .request, contentType := .json,
    modification := .jsonPath "toString.x" (.num 5) }

/-- A concrete request carrying a body and a Content-Length header. -/
def mRawBody : ModifiedRequest :=
  { url := "u", method := "GET", headers := [("Content-Length", "7")],
    body := some "rawbody", modifications := [] }

/-- C6 counterexample: the claim as stated fails on the path
"toString.x" against body `{"a": 1}`. The segment "toString" does not
exist in the parsed structure (first conjunct), yet the JS property
read resolves it through the prototype chain to
`Object.prototype.toString`, the assignment onto that extensible host
object succeeds, and the code — far from erroring with the body
unchanged — records "Modified JSON path: toString.x", re-serializes
the body and rewrites Content-Length. -/
theorem c6_counterexample :
    lookupField [("a", Json.num 1)] "toString" = none
    ∧ (applyBodyModification parseConstA stringifyEmpty actProtoPath mRawBody).modifications
        = ["Modified JSON path: toString.x"]
    ∧ (applyBodyModification parseConstA stringifyEmpty actProtoPath mRawBody).body
        = some ""
    ∧ (applyBodyModification parseConstA stringifyEmpty actProtoPath mRawBody).headers
        = [("Content-Length", "0")] := by
  refine ⟨rfl, ?_, ?_, ?_⟩ <;> decide

/-- C6 (amended): a JSON-path body modification whose path has an
intermediate segment that neither exists in the parsed structure nor is
one of the property names inherited from `Object.prototype`
(constructor, toString, valueOf, hasOwnProperty, …) fails without
auto-creating containers: the body, headers (hence Content-Length),
url and method are unchanged, exactly one "Error modifying body:
<message>" trace entry is appended, and no exception escapes (the
embedding is total). For an inherited name the property read succeeds
on the prototype and the write completes without error (see the
counterexample). -/
theorem c6_missing_segment_no_autocreate :
    ∀ (parse : String → Except String Json) (stringify : Json → String)
      (a : BodyModification) (m : ModifiedRequest) (b : String) (j : Json)
      (path : String) (v : Json),
      a.contentType = .json →
      a.modification = .jsonPath path v →
      m.body = some b → b ≠ "" →
      parse b = .ok j →
      MissingMid j ((jsSplit '.' path).dropLast) →
      (applyBodyModification parse stringify a m).body = m.body
      ∧ (applyBodyModification parse stringify a m).headers = m.headers
      ∧ (applyBodyModification parse stringify a m).url = m.url
      ∧ (applyBodyModification parse stringify a m).method = m.method
      ∧ ∃ msg, (applyBodyModification parse stringify a m).modifications
          = m.modifications ++ ["Error modifying body: " ++ msg] := by
  intro parse stringify a m b j path v hct hmod hb hbne hp hmiss
  obtain ⟨msg, hmsg⟩ := isJsonError_exists
    (setPath_missing_error hmiss ((jsSplit '.' path).getLastD "") v)
  have hjp : applyJSONPath j path v = .error msg := by
    unfold applyJSONPath
    simp only [hmsg]
  have hcond : ¬ (m.body = none ∨ m.body = some "") := by
    rw [hb]
    simp [hbne]
  have hjson : modifyJSONBody parse stringify a m = .error msg := by
    rw [modifyJSONBody, hb]
    simp only [Option.getD_some, hp, hmod, hjp]
  have : applyBodyModification parse stringify a m
      = { m with modifications := m.modifications ++ ["Error modifying body: " ++ msg] } := by
    rw [applyBodyModification, if_neg hcond, hct, hjson]
  rw [this]
  exact ⟨rfl, rfl, rfl, rfl, msg, rfl⟩

/-- C6 witness: writing path "x.y" into `{"a": 1}` — segment "x" neither
exists nor is inherited — leaves a concrete request untouched except
for the error trace entry. -/
theorem c6_missing_segment_no_autocreate_witness :
    (applyBodyModification parseConstA stringifyEmpty
        { target := .request, contentType := .json,
          modification := .jsonPath "x.y" .null }
        { url := "u", method := "GET", headers := [("Content-Length", "8")],
          body := some "rawbody", modifications := [] }).body
      = some "rawbody"
    ∧ (applyBodyModification parseConstA stringifyEmpty
        { target := .request, contentType := .json,
          modification := .jsonPath "x.y" .null }
        { url := "u", method := "GET", headers := [("Content-Length", "8")],
          body := some "rawbody", modifications := [] }).headers
      = [("Content-Length", "8")]
    ∧ ∃ msg, (applyBodyModification parseConstA stringifyEmpty
        { target := .request, contentType := .json,
          modification := .jsonPath "x.y" .null }
        { url := "u", method := "GET", headers := [("Content-Length", "8")],
          body := some "rawbody", modifications := [] }).modifications
      = [] ++ ["Error modifying body: " ++ msg] := by
  have h := c6_missing_segment_no_autocreate parseConstA stringifyEmpty
    { target := .request, contentType := .json,
      modification := .jsonPath "x.y" .null }
    { url := "u", method := "GET", headers := [("Content-Length", "8")],
      body := some "rawbody", modifications := [] }
    "rawbody" (.obj [("a", .num 1)]) "x.y" .null
    rfl rfl rfl (by decide) rfl
    (MissingMid.plainMissing [("a", .num 1)] "x" [] rfl rfl (by decide))
  exact ⟨h.1, h.2.1, h.2.2.2.2⟩

end Reflow
